import Mathlib

/-!
Verification development for the windowed ingestion + aggregation pipeline of the
AI-driven renewable-energy forecasting repository.

The definitions below are a shallow embedding of the pipeline scripts:
* `windowChunks` embeds the 30-day windowing loop of `fetch_and_store_data_for_range`
  (`Past implementations/data_collection/energy/EIA_API_request_all_dates.py`),
  with timestamps modelled as day counts (`Nat`).
* `upsertBy`, `storeLoop`, `store_data` embed the SQLite `INSERT OR REPLACE` store
  (`store_data`), with `REAL` values idealised as rationals.
* `calculate_statistics` embeds the aggregation (daily `GROUP BY` rollups and
  regional per-category percentages, via `calcStats`) together with its
  `try/except` rollback: SQLite `date()` (`sqlDate`) is `NULL` on unparseable
  periods — notably the hour-only `YYYY-MM-DDTHH` ones the EIA hourly API
  delivers — which makes both inserts violate their `NOT NULL date` column,
  so the transaction rolls back and nothing is written; SQL division by zero
  yields `NULL` (modelled as `none`).
* `get_energy_production_data` / `fetch_energy_data` embed the two fetchers.
* `Conn` models the sqlite connection's commit/rollback transaction behaviour.
-/

namespace EIA

/-! ## Windowing (`fetch_and_store_data_for_range`, lines 158–191)

The loop:
`while current_start < end: current_end := current_start + timedelta(days=30);
 if current_end > end: current_end := end; ... ; current_start := current_end`.
Timestamps are day counts; the explicit fuel argument (`e - s` suffices because
every iteration advances `current_start` by at least one day) makes the
function structurally recursive and hence evaluable by `decide`. -/

def windowChunksAux : Nat → Nat → Nat → List (Nat × Nat)
  | 0, _, _ => []
  | fuel + 1, s, e =>
    if s < e then (s, min (s + 30) e) :: windowChunksAux fuel (min (s + 30) e) e
    else []

def windowChunks (s e : Nat) : List (Nat × Nat) :=
  windowChunksAux (e - s) s e

/-! ## Data model

`EnergyProduction` rows as created by `initialize_database`: the content columns
`(period, respondent, respondent_name, fuel_type, type_name, value, units)` with
natural key `UNIQUE(period, respondent, fuel_type)`.  The sqlite `id` and
`created_at` bookkeeping columns are not part of the relational content.
`REAL` values are idealised as rationals. -/

structure RawRow where
  period : String
  respondent : String
  respondentName : Option String
  fuelType : String
  typeName : String
  value : ℚ
  units : Option String
deriving DecidableEq

def rawKey (r : RawRow) : String × String × String :=
  (r.period, r.respondent, r.fuelType)

/-- A JSON scalar found in an API entry's `value` field: either something
`float()` converts (numbers and numeric strings), or a value on which `float()`
raises (`ValueError`/`TypeError`). -/
inductive JsonNum where
  | num (q : ℚ)
  | malformed
deriving DecidableEq

/-- One element of the API `response.data` list, as consumed by `store_data`
via `entry.get(...)`: every field may be absent. -/
structure Entry where
  period : Option String
  respondent : Option String
  respondentName : Option String
  fueltype : Option String
  typeName : Option String
  value : Option JsonNum
  valueUnits : Option String
deriving DecidableEq

/-- `float(entry.get('value', 0))`: an absent field defaults to `0`, a
convertible value converts, and a malformed value raises (modelled `none`). -/
def tryFloat : Option JsonNum → Option ℚ
  | none => some (0 : ℚ)
  | some (JsonNum.num q) => some q
  | some JsonNum.malformed => none

/-- `INSERT OR REPLACE` keyed by a natural key on a table modelled as a row
list: if the key is present the row is replaced in place, otherwise the new
row is appended.  (Row order inside a SQL table is not semantic.) -/
def upsertBy {α κ : Type} [DecidableEq κ] (key : α → κ) (tbl : List α) (r : α) : List α :=
  if tbl.any (fun x => decide (key x = key r)) then
    tbl.map (fun x => if key x = key r then r else x)
  else tbl ++ [r]

/-- At most one row per natural key (the `UNIQUE` constraint invariant). -/
def keyUnique {α κ : Type} [DecidableEq κ] (key : α → κ) (tbl : List α) : Prop :=
  tbl.Pairwise (fun a b => key a ≠ key b)

/-! ## Derived tables (`calculate_statistics`, lines 234–298)

`DailyGeneration` and `RegionalStats` content rows, and the two aggregation
queries.  SQLite `date(period)` (modelled by `sqlDate`) parses only its
accepted time-string formats and is `NULL` on everything else — in particular
on the hour-only `YYYY-MM-DDTHH` periods the EIA hourly API delivers, so on
such data both derived-table inserts violate their `NOT NULL date` column,
`calculate_statistics` catches the `IntegrityError` and rolls back, and no
derived row is written.  SQL `x / y` with `y = 0` yields `NULL`, hence
`Option ℚ`. -/

structure DailyRow where
  date : String
  respondent : String
  fuelType : String
  totalMwh : ℚ
  peakMwh : Option ℚ
  averageMwh : Option ℚ
deriving DecidableEq

def dailyKey (r : DailyRow) : String × String × String :=
  (r.date, r.respondent, r.fuelType)

structure RegionalRow where
  respondent : String
  date : String
  totalGenerationMwh : ℚ
  renewablePercentage : Option ℚ
  peakHourMwh : Option ℚ
  averageHourlyMwh : Option ℚ
  coalPercentage : Option ℚ
  gasPercentage : Option ℚ
  nuclearPercentage : Option ℚ
  solarPercentage : Option ℚ
  windPercentage : Option ℚ
  hydroPercentage : Option ℚ
deriving DecidableEq

def regKey (r : RegionalRow) : String × String :=
  (r.respondent, r.date)

/-- Numeric value of a decimal digit character. -/
def digitVal (c : Char) : Nat := c.toNat - 48

/-- The fractional-seconds tail of a SQLite time string: empty, or `.`
followed by at least one digit. -/
def validFraction : List Char → Bool
  | [] => true
  | dot :: ds => (dot == '.') && !ds.isEmpty && ds.all (fun c => c.isDigit)

/-- The seconds tail of a SQLite time string: empty, or `:SS` with
`SS ≤ 59`, then an optional fraction. -/
def validSeconds : List Char → Bool
  | [] => true
  | c2 :: s1 :: s2 :: rest =>
    (c2 == ':') && s1.isDigit && s2.isDigit &&
    decide (10 * digitVal s1 + digitVal s2 ≤ 59) && validFraction rest
  | _ => false

/-- The time part of a SQLite time string: empty, or `HH:MM` with `HH ≤ 24`
and `MM ≤ 59`, then an optional seconds tail.  An hour alone (`HH`, the EIA
hourly period suffix) is not an accepted form. -/
def validTime : List Char → Bool
  | [] => true
  | h1 :: h2 :: c1 :: n1 :: n2 :: rest =>
    h1.isDigit && h2.isDigit && (c1 == ':') && n1.isDigit && n2.isDigit &&
    decide (10 * digitVal h1 + digitVal h2 ≤ 24) &&
    decide (10 * digitVal n1 + digitVal n2 ≤ 59) && validSeconds rest
  | _ => false

/-- The date part `YYYY-MM-DD`: exactly ten characters, digits and dashes in
place, month `01`–`12` and day `01`–`31` (out-of-range fields make the whole
string unparseable — SQLite does not normalize them away in `date()`). -/
def validDate : List Char → Bool
  | [y1, y2, y3, y4, s1, m1, m2, s2, d1, d2] =>
    y1.isDigit && y2.isDigit && y3.isDigit && y4.isDigit &&
    (s1 == '-') && (s2 == '-') &&
    m1.isDigit && m2.isDigit && d1.isDigit && d2.isDigit &&
    decide (1 ≤ 10 * digitVal m1 + digitVal m2 ∧ 10 * digitVal m1 + digitVal m2 ≤ 12) &&
    decide (1 ≤ 10 * digitVal d1 + digitVal d2 ∧ 10 * digitVal d1 + digitVal d2 ≤ 31)
  | _ => false

/-- SQLite `date(x)`: the `YYYY-MM-DD` part of an accepted time string, and
`NULL` (`none`) on everything else.  Accepted here are `YYYY-MM-DD`,
optionally followed by a `T` or space separator and an `HH:MM[:SS[.ddd]]`
time.  In particular `date('2024-01-01T00')` — an EIA hourly period — is
`NULL`, while `date('2024-01-01')` and `date('2024-01-01T05:00')` are
`2024-01-01` (behaviour checked against SQLite).  Julian day numbers,
time-only strings, `now`, and surplus whitespace are outside this
development's domain. -/
def sqlDate (s : String) : Option String :=
  if validDate (s.toList.take 10) &&
      (match s.toList.drop 10 with
        | [] => true
        | sep :: rest => (sep == 'T' || sep == ' ') && validTime rest) then
    some (s.take 10)
  else none

/-- `WHERE respondent = ?`. -/
def rowsFor (raw : List RawRow) (region : String) : List RawRow :=
  raw.filter (fun r => decide (r.respondent = region))

/-- `SUM(value)` over a group. -/
def sumVal (g : List RawRow) : ℚ := (g.map (fun r => r.value)).sum

/-- `MAX(value)` over a group (`NULL` on the empty group). -/
def qMax : List ℚ → Option ℚ
  | [] => none
  | a :: l => some (l.foldl max a)

/-- `AVG(value)` over a group (`NULL` on the empty group). -/
def qAvg (l : List ℚ) : Option ℚ :=
  if l.isEmpty then none else some (l.sum / (l.length : ℚ))

/-- `SUM(CASE WHEN fuel_type = ft THEN value ELSE 0 END)`. -/
def catSum (g : List RawRow) (ft : String) : ℚ :=
  (g.map (fun r => if r.fuelType = ft then r.value else 0)).sum

/-- `SUM(CASE WHEN fuel_type IN ('SUN', 'WND', 'WAT') THEN value ELSE 0 END)`. -/
def renewSum (g : List RawRow) : ℚ :=
  (g.map (fun r =>
    if r.fuelType = "SUN" ∨ r.fuelType = "WND" ∨ r.fuelType = "WAT" then r.value
    else 0)).sum

/-- SQLite division: `x / 0` evaluates to `NULL`, never a fault. -/
def sqlDiv (a b : ℚ) : Option ℚ := if b = 0 then none else some (a / b)

/-- `(subtotal / total * 100)`; `NULL` propagates through the multiplication. -/
def pct (sub total : ℚ) : Option ℚ := (sqlDiv sub total).map (fun q => q * 100)

/-- Whether the aggregation transaction for this region faults: some raw row
of the region has a period on which `date()` is `NULL`, so the corresponding
group's insert violates the `NOT NULL` `date` column of `DailyGeneration`
(and of `RegionalStats`), raising `sqlite3.IntegrityError`.  No other
data-driven failure exists: the remaining `NOT NULL` columns receive the
region string, fuel-type strings, and `SUM` over a non-empty group, and key
conflicts are absorbed by `INSERT OR REPLACE`. -/
def aggFaults (raw : List RawRow) (region : String) : Bool :=
  (rowsFor raw region).any (fun r => (sqlDate r.period).isNone)

/-- The `GROUP BY date(period), respondent, fuel_type` key list restricted to
parseable dates (SQL groups distinct key combinations; `dedup` keeps one
occurrence per key).  When `aggFaults` is false this is every group; when it
is true the aggregation never commits, so the `NULL`-date group is moot. -/
def dailyKeys (raw : List RawRow) (region : String) : List (String × String) :=
  ((rowsFor raw region).filterMap
    (fun r => (sqlDate r.period).map (fun d => (d, r.fuelType)))).dedup

/-- The rows produced by the `DailyGeneration` aggregation query. -/
def dailyRowsFor (raw : List RawRow) (region : String) : List DailyRow :=
  (dailyKeys raw region).map (fun k =>
    let g := (rowsFor raw region).filter
      (fun r => decide (sqlDate r.period = some k.1 ∧ r.fuelType = k.2))
    { date := k.1
      respondent := region
      fuelType := k.2
      totalMwh := sumVal g
      peakMwh := qMax (g.map (fun r => r.value))
      averageMwh := qAvg (g.map (fun r => r.value)) })

/-- The `GROUP BY date(period), respondent` key list of the `daily_totals`
CTE, restricted to parseable dates. -/
def regDates (raw : List RawRow) (region : String) : List String :=
  ((rowsFor raw region).filterMap (fun r => sqlDate r.period)).dedup

/-- One row of the `RegionalStats` aggregation query for a given date. -/
def regionalRowFor (raw : List RawRow) (region : String) (d : String) : RegionalRow :=
  let g := (rowsFor raw region).filter (fun r => decide (sqlDate r.period = some d))
  let total := sumVal g
  { respondent := region
    date := d
    totalGenerationMwh := total
    renewablePercentage := pct (renewSum g) total
    peakHourMwh := qMax (g.map (fun r => r.value))
    averageHourlyMwh := qAvg (g.map (fun r => r.value))
    coalPercentage := pct (catSum g "COL") total
    gasPercentage := pct (catSum g "NG") total
    nuclearPercentage := pct (catSum g "NUC") total
    solarPercentage := pct (catSum g "SUN") total
    windPercentage := pct (catSum g "WND") total
    hydroPercentage := pct (catSum g "WAT") total }

/-- The rows produced by the `RegionalStats` aggregation query. -/
def regionalRowsFor (raw : List RawRow) (region : String) : List RegionalRow :=
  (regDates raw region).map (fun d => regionalRowFor raw region d)

/-- The three tables created by `initialize_database`. -/
structure DBState where
  raw : List RawRow
  daily : List DailyRow
  regional : List RegionalRow
deriving DecidableEq

/-- The success path of `calculate_statistics` (reached exactly when
`aggFaults` is false): recompute both derived tables from the current
`EnergyProduction` contents for one region and upsert every produced row by
its natural key.  The raw table is only read. -/
def calcStats (st : DBState) (region : String) : DBState :=
  { raw := st.raw
    daily := (dailyRowsFor st.raw region).foldl (upsertBy dailyKey) st.daily
    regional := (regionalRowsFor st.raw region).foldl (upsertBy regKey) st.regional }

/-- `calculate_statistics` on the database state, `try/except` included: when
some period of the region has an unparseable date, the insert raises
`IntegrityError` on the `NOT NULL` `date` column, the handler logs and rolls
the transaction back, and the state is unchanged; otherwise both derived
tables are recomputed and committed.  Either way no exception escapes. -/
def calculate_statistics (st : DBState) (region : String) : DBState :=
  if aggFaults st.raw region then st else calcStats st region

/-! ## Transactions (`DatabaseConnection` / `conn.commit` / `conn.rollback`)

A connection holds the last committed snapshot and the working snapshot of the
current implicit transaction. -/

structure Conn where
  committed : DBState
  pending : DBState
deriving DecidableEq

def Conn.commit (c : Conn) : Conn := ⟨c.pending, c.pending⟩

def Conn.rollback (c : Conn) : Conn := ⟨c.committed, c.committed⟩

def initDB : DBState := ⟨[], [], []⟩

/-- A fresh connection right after `initialize_database`. -/
def initConn : Conn := ⟨initDB, initDB⟩

/-- The pending state after an aggregation run that raises after `k` of the
daily upserts have been issued (the exact interruption point is irrelevant:
the exception handler rolls the whole transaction back). -/
def calcStatsInterrupted (st : DBState) (region : String) (k : Nat) : DBState :=
  { st with daily := ((dailyRowsFor st.raw region).take k).foldl (upsertBy dailyKey) st.daily }

/-- `calculate_statistics` on the connection, `try/except` included.  The
data-driven failure — an unparseable period date violating the `NOT NULL`
`date` column — triggers `db_conn.conn.rollback()`; `fault = some k` injects
any other storage-layer failure (§4.4's derived-table write failure) after
`k` upserts, likewise rolled back; otherwise the recomputation is committed.
No exception escapes in any case. -/
def calcStatsTx (c : Conn) (region : String) (fault : Option Nat) : Conn :=
  match fault with
  | some k => Conn.rollback ⟨c.committed, calcStatsInterrupted c.pending region k⟩
  | none =>
    if aggFaults c.pending.raw region then Conn.rollback ⟨c.committed, c.pending⟩
    else Conn.commit ⟨c.committed, calcStats c.pending region⟩

/-! ## Store (`store_data`, lines 193–232) -/

/-- What processing one entry of the batch does.
The parameter tuple of the `INSERT` is built first: `float(entry.get('value', 0))`
raises a non-`sqlite3.Error` exception on a malformed value (`fatal`: it escapes
the inner handler).  Then `cursor.execute` raises `sqlite3.Error` when a
`NOT NULL` column (`period`, `respondent`, `fuel_type`, `type_name`) receives
`None` (`skipped`: caught by the inner `except sqlite3.Error: continue`).
Otherwise the row is upserted (`stored`). -/
inductive EntryResult where
  | stored (r : RawRow)
  | skipped
  | fatal
deriving DecidableEq

def processEntry (e : Entry) : EntryResult :=
  match tryFloat e.value with
  | none => EntryResult.fatal
  | some v =>
    match e.period, e.respondent, e.fueltype, e.typeName with
    | some p, some rsp, some ft, some tn =>
      EntryResult.stored
        { period := p, respondent := rsp, respondentName := e.respondentName
          fuelType := ft, typeName := tn, value := v, units := e.valueUnits }
    | _, _, _, _ => EntryResult.skipped

/-- The row an entry contributes when it is stored, `none` when it is skipped
or aborts the batch. -/
def entryRow (e : Entry) : Option RawRow :=
  match processEntry e with
  | EntryResult.stored r => some r
  | _ => none

/-- The `for entry in data` loop of `store_data` acting on the pending raw
table: returns the table, the `stored_count`, and whether a batch-aborting
(non-sqlite) exception was raised. -/
def storeLoop : List RawRow → Nat → List Entry → List RawRow × Nat × Bool
  | tbl, n, [] => (tbl, n, false)
  | tbl, n, e :: es =>
    match processEntry e with
    | EntryResult.stored r => storeLoop (upsertBy rawKey tbl r) (n + 1) es
    | EntryResult.skipped => storeLoop tbl n es
    | EntryResult.fatal => (tbl, n, true)

/-- `store_data`: run the entry loop; on a batch-aborting exception the outer
`except Exception` returns `False` without committing (the partially executed
statements stay uncommitted on the connection).  Otherwise the batch is
committed, `calculate_statistics` runs when `stored_count > 0`, and `True` is
returned (aggregation failures are swallowed inside `calculate_statistics`). -/
def store_data (c : Conn) (data : List Entry) (region : String) (aggFault : Option Nat) :
    Conn × Bool :=
  let res := storeLoop c.pending.raw 0 data
  if res.2.2 then
    (⟨c.committed, { c.pending with raw := res.1 }⟩, false)
  else
    let c1 := Conn.commit ⟨c.committed, { c.pending with raw := res.1 }⟩
    if 0 < res.2.1 then (calcStatsTx c1 region aggFault, true)
    else (c1, true)

/-- The internal `stored_count` of a batch (logged and used to trigger
aggregation; not part of the return value of `store_data`). -/
def storedCount (c : Conn) (data : List Entry) : Nat :=
  (storeLoop c.pending.raw 0 data).2.1

/-- A sequence of store batches `(data, region)` against a fresh database. -/
def runBatches (bs : List (List Entry × String)) : Conn :=
  bs.foldl (fun c b => (store_data c b.1 b.2 none).1) initConn

/-! ## Fetchers -/

/-- The transport's answer to one request, as seen by the client: the HTTP
status code and, when the JSON body carries the expected
`response`/`data` structural keys, the record list (`none` models a body on
which `data['response']['data']` raises `KeyError`). -/
structure ApiResponse where
  statusCode : Nat
  payload : Option (List Entry)
deriving DecidableEq

/-- `get_energy_production_data` (lines 118–156): non-200 status returns `[]`;
a body missing the structural keys raises `KeyError` inside the `try`, which
the `except Exception` turns into `[]`; on success the records are returned
exactly as delivered. -/
def get_energy_production_data (resp : ApiResponse) : List Entry :=
  if resp.statusCode ≠ 200 then []
  else
    match resp.payload with
    | none => []
    | some records => records

/-- The single `requests.get` call of one chunk fetch: exactly one response is
consumed from the transport queue, whatever the outcome. -/
def fetchOnce (queue : List ApiResponse) : List Entry × List ApiResponse :=
  match queue with
  | [] => ([], [])
  | r :: rest => (get_energy_production_data r, rest)

/-- One iteration of the record loop of `fetch_energy_data`
(`final_deliverable/EIA_requests.py`, lines 29–47): `item['respondent']` is
read first (`KeyError` when absent), a mismatching respondent is skipped
(`continue`), and then the record fields are read directly —
`float(item['value'])` raises on a missing or malformed value. -/
def csvRecordOf (gridOp : String) (item : Entry) : Except Unit (Option RawRow) :=
  match item.respondent with
  | none => Except.error ()
  | some rsp =>
    if rsp ≠ gridOp then Except.ok none
    else
      match item.period, item.respondentName, item.fueltype, item.typeName,
            item.valueUnits with
      | some p, some rn, some ft, some tn, some vu =>
        match item.value with
        | some (JsonNum.num q) =>
          Except.ok (some
            { period := p, respondent := rsp, respondentName := some rn
              fuelType := ft, typeName := tn, value := q, units := some vu })
        | _ => Except.error ()
      | _, _, _, _, _ => Except.error ()

def processRecords (gridOp : String) : List Entry → Except Unit (List RawRow)
  | [] => Except.ok []
  | item :: rest =>
    match csvRecordOf gridOp item with
    | Except.error u => Except.error u
    | Except.ok r =>
      match processRecords gridOp rest with
      | Except.error u => Except.error u
      | Except.ok rs =>
        match r with
        | some row => Except.ok (row :: rs)
        | none => Except.ok rs

/-- `fetch_energy_data` (lines 8–71): the function checks the structural keys
first and returns early (saving nothing) when they are missing, and likewise
when the record list is empty.  Its only output is the processed record list
written to CSV, modelled as the returned list (the trailing pandas sort and
file write fall outside this embedding). -/
def fetch_energy_data (payload : Option (List Entry)) (gridOp : String) :
    Except Unit (List RawRow) :=
  match payload with
  | none => Except.ok []
  | some records =>
    if records.isEmpty then Except.ok []
    else processRecords gridOp records

/-! ## Concrete fixtures used by witnesses and counterexamples -/

/-- A well-formed API entry for region `NE`. -/
def entOk (p ft tn : String) (v : ℚ) : Entry :=
  { period := some p, respondent := some "NE", respondentName := some "New England"
    fueltype := some ft, typeName := some tn, value := some (JsonNum.num v)
    valueUnits := some "megawatthours" }

/-- An entry whose `value` cannot be converted by `float` (e.g. `"N/A"`). -/
def entMalformed : Entry :=
  { period := some "2024-01-01T01", respondent := some "NE"
    respondentName := some "New England", fueltype := some "WND"
    typeName := some "Wind", value := some JsonNum.malformed
    valueUnits := some "megawatthours" }

/-- An entry without a `period`, violating the `NOT NULL` constraint. -/
def entNoPeriod : Entry :=
  { period := none, respondent := some "NE", respondentName := some "New England"
    fueltype := some "WND", typeName := some "Wind"
    value := some (JsonNum.num 5), valueUnits := some "megawatthours" }

/-- An entry lacking the `value` field entirely. -/
def entNoValue : Entry :=
  { period := some "2024-01-01T02", respondent := some "NE"
    respondentName := some "New England", fueltype := some "SUN"
    typeName := some "Solar", value := none, valueUnits := some "megawatthours" }

/-- The row stored for an entry whose `value` field is absent:
`float(entry.get('value', 0))` silently defaults to `0.0`. -/
def zeroValueRow (e : Entry) (p rsp ft tn : String) : RawRow :=
  { period := p, respondent := rsp, respondentName := e.respondentName
    fuelType := ft, typeName := tn, value := 0, units := e.valueUnits }

/-- A raw row, and a second row with the same natural key but different
value/units (a re-ingested reading). -/
def rowA : RawRow :=
  { period := "2024-01-01T00", respondent := "NE", respondentName := none
    fuelType := "SUN", typeName := "Solar", value := 1, units := some "MWh" }

def rowA2 : RawRow :=
  { period := "2024-01-01T00", respondent := "NE", respondentName := none
    fuelType := "SUN", typeName := "Solar", value := 2, units := some "megawatthours" }

/-- A raw table whose only reading for the day is zero, so the day's
`total_generation` is zero.  The period is a plain date, on which `date()`
parses and the aggregation actually writes its rows. -/
def zeroRaw : List RawRow :=
  [ { period := "2024-01-01", respondent := "NE", respondentName := none
      fuelType := "SUN", typeName := "Solar", value := 0, units := none } ]

/-- The §8 scenario: raw records for entity `NE`, date `2024-01-01`, with
`SUN=10`, `WND=20`, `COL=70`.  The periods are the date itself, so `date()`
parses them and the aggregation commits (an hour-only period such as
`2024-01-01T00` would instead make it fault and write nothing). -/
def neScenario : List RawRow :=
  [ { period := "2024-01-01", respondent := "NE", respondentName := none
      fuelType := "SUN", typeName := "Solar", value := 10, units := none }
  , { period := "2024-01-01", respondent := "NE", respondentName := none
      fuelType := "WND", typeName := "Wind", value := 20, units := none }
  , { period := "2024-01-01", respondent := "NE", respondentName := none
      fuelType := "COL", typeName := "Coal", value := 70, units := none } ]

/-! ## Windowing lemmas -/

lemma windowChunksAux_nil (fuel s e : Nat) (h : ¬ s < e) :
    windowChunksAux fuel s e = [] := by
  cases fuel with
  | zero => rfl
  | succ n => simp [windowChunksAux, h]

lemma windowChunksAux_congr (fuel : Nat) : ∀ fuel' s e : Nat,
    e - s ≤ fuel → e - s ≤ fuel' →
    windowChunksAux fuel s e = windowChunksAux fuel' s e := by
  induction fuel with
  | zero =>
    intro fuel' s e h _
    have hns : ¬ s < e := by omega
    rw [windowChunksAux_nil _ s e hns, windowChunksAux_nil _ s e hns]
  | succ n ih =>
    intro fuel' s e h h'
    by_cases hs : s < e
    · obtain ⟨m, rfl⟩ : ∃ m, fuel' = m + 1 := ⟨fuel' - 1, by omega⟩
      simp only [windowChunksAux, hs, if_true]
      have hm : s < min (s + 30) e := by omega
      exact congrArg _ (ih m _ e (by omega) (by omega))
    · rw [windowChunksAux_nil _ s e hs, windowChunksAux_nil _ s e hs]

/-- One-step unfolding of the windowing loop. -/
lemma windowChunks_eq (s e : Nat) :
    windowChunks s e =
      if s < e then (s, min (s + 30) e) :: windowChunks (min (s + 30) e) e
      else [] := by
  by_cases hs : s < e
  · have h1 : e - s = (e - s - 1) + 1 := by omega
    rw [windowChunks, h1]
    simp only [windowChunksAux, hs, if_true]
    exact congrArg _ (windowChunksAux_congr _ _ _ e (by omega) (le_refl _))
  · simp [windowChunks, windowChunksAux_nil _ s e hs, hs]

lemma windowChunks_nil (s e : Nat) (h : ¬ s < e) : windowChunks s e = [] := by
  rw [windowChunks_eq]; simp [h]

lemma windowChunks_head (s e : Nat) :
    (windowChunks s e).head? =
      if s < e then some (s, min (s + 30) e) else none := by
  rw [windowChunks_eq]
  by_cases hs : s < e <;> simp [hs]

lemma windowChunks_mem (n : Nat) : ∀ s e : Nat, e - s ≤ n →
    ∀ p ∈ windowChunks s e, p.2 = min (p.1 + 30) e ∧ p.1 < p.2 ∧ p.2 - p.1 ≤ 30 := by
  induction n with
  | zero =>
    intro s e h p hp
    rw [windowChunks_nil s e (by omega)] at hp
    simp at hp
  | succ n ih =>
    intro s e h p hp
    rw [windowChunks_eq] at hp
    by_cases hs : s < e
    · simp only [hs, if_true, List.mem_cons] at hp
      rcases hp with rfl | hp
      · exact ⟨rfl, by omega, by omega⟩
      · exact ih (min (s + 30) e) e (by omega) p hp
    · simp [hs] at hp

lemma windowChunks_chain (n : Nat) : ∀ s e : Nat, e - s ≤ n →
    List.Chain' (fun p q : Nat × Nat => p.2 = q.1) (windowChunks s e) := by
  induction n with
  | zero =>
    intro s e h
    rw [windowChunks_nil s e (by omega)]
    exact List.chain'_nil
  | succ n ih =>
    intro s e h
    rw [windowChunks_eq]
    by_cases hs : s < e
    · simp only [hs, if_true]
      rw [List.chain'_cons']
      refine ⟨?_, ih (min (s + 30) e) e (by omega)⟩
      intro q hq
      rw [windowChunks_head] at hq
      by_cases hm : min (s + 30) e < e
      · simp only [hm, if_true, Option.mem_def, Option.some.injEq] at hq
        rw [← hq]
      · simp [hm] at hq
    · simp [hs]

lemma windowChunks_countP (n : Nat) : ∀ s e t : Nat, e - s ≤ n →
    (windowChunks s e).countP (fun p => decide (p.1 ≤ t ∧ t < p.2)) =
      if s ≤ t ∧ t < e then 1 else 0 := by
  induction n with
  | zero =>
    intro s e t h
    rw [windowChunks_nil s e (by omega)]
    simp only [List.countP_nil]
    have : ¬ (s ≤ t ∧ t < e) := by omega
    simp [this]
  | succ n ih =>
    intro s e t h
    rw [windowChunks_eq]
    by_cases hs : s < e
    · simp only [hs, if_true, List.countP_cons, decide_eq_true_eq]
      rw [ih (min (s + 30) e) e t (by omega)]
      split_ifs <;> omega
    · simp only [hs, if_false, List.countP_nil]
      have : ¬ (s ≤ t ∧ t < e) := by omega
      simp [this]

/-- C1: the windowing loop of `fetch_and_store_data_for_range` (with its
hard-coded 30-day maximum window) produces chunks that start at `start`, have
`chunk_end = min(chunk_start + 30, end)`, are contiguous (each chunk starts
where the previous one ended), span at most 30 days each, cover `[start, end)`
exactly and without overlap (every day in the range lies in exactly one chunk,
every day outside in none), and the sequence is empty exactly when
`start >= end`, which is not an error. -/
theorem windowing_C1 (s e : Nat) :
    (windowChunks s e = [] ↔ e ≤ s) ∧
    (windowChunks s e).head? = (if s < e then some (s, min (s + 30) e) else none) ∧
    (∀ p ∈ windowChunks s e, p.2 = min (p.1 + 30) e ∧ p.1 < p.2 ∧ p.2 - p.1 ≤ 30) ∧
    List.Chain' (fun p q : Nat × Nat => p.2 = q.1) (windowChunks s e) ∧
    (∀ t : Nat, (windowChunks s e).countP (fun p => decide (p.1 ≤ t ∧ t < p.2)) =
      if s ≤ t ∧ t < e then 1 else 0) := by
  refine ⟨?_, windowChunks_head s e, windowChunks_mem (e - s) s e (le_refl _),
    windowChunks_chain (e - s) s e (le_refl _),
    fun t => windowChunks_countP (e - s) s e t (le_refl _)⟩
  constructor
  · intro hnil
    by_contra hlt
    rw [windowChunks_eq] at hnil
    simp only [Nat.lt_of_not_le hlt, if_true] at hnil
    exact List.cons_ne_nil _ _ hnil
  · intro hle
    exact windowChunks_nil s e (by omega)

/-- Witness for C1, on the §8 scenario range `2024-01-01 .. 2024-03-02`
(61 days): the sequence is `[(0,30), (30,60), (60,61)]`, its first chunk starts
at day 0, the final chunk `(60,61)` ends exactly at day 61, and day 45 lies in
exactly one chunk. -/
theorem windowing_C1_witness :
    (windowChunks 0 61).head? = some (0, min 30 61) ∧
    ((60, 61) : Nat × Nat).2 = min (60 + 30) 61 ∧
    (windowChunks 0 61).countP (fun p => decide (p.1 ≤ 45 ∧ 45 < p.2)) = 1 ∧
    windowChunks 0 61 = [(0, 30), (30, 60), (60, 61)] := by
  have h := windowing_C1 0 61
  refine ⟨?_, ?_, ?_, by decide⟩
  · have := h.2.1
    simpa using this
  · exact (h.2.2.1 (60, 61) (by decide)).1
  · have := h.2.2.2.2 45
    simpa using this

/-! ## Upsert lemmas -/

section UpsertLemmas

variable {α κ : Type} [DecidableEq κ] {key : α → κ}

lemma mem_upsertBy {tbl : List α} {r x : α} (hx : x ∈ upsertBy key tbl r) :
    x ∈ tbl ∨ x = r := by
  unfold upsertBy at hx
  by_cases hany : tbl.any (fun y => decide (key y = key r)) = true
  · rw [if_pos hany] at hx
    obtain ⟨y, hy, hfy⟩ := List.mem_map.mp hx
    by_cases h : key y = key r
    · right; rw [← hfy]; simp [h]
    · left; rw [← hfy]; simpa [h] using hy
  · rw [if_neg hany] at hx
    rcases List.mem_append.mp hx with h | h
    · exact Or.inl h
    · exact Or.inr (List.mem_singleton.mp h)

lemma upsertBy_key_rows (tbl : List α) (r : α) :
    ∀ x ∈ upsertBy key tbl r, key x = key r → x = r := by
  intro x hx hkx
  unfold upsertBy at hx
  by_cases hany : tbl.any (fun y => decide (key y = key r)) = true
  · rw [if_pos hany] at hx
    obtain ⟨y, _, hfy⟩ := List.mem_map.mp hx
    by_cases h : key y = key r
    · rw [← hfy]; simp [h]
    · rw [← hfy] at hkx
      rw [if_neg h] at hkx
      exact absurd hkx h
  · rw [if_neg hany] at hx
    rcases List.mem_append.mp hx with h | h
    · exfalso
      have := List.any_eq_false.mp (Bool.not_eq_true _ ▸ hany)
      exact absurd (by simpa using hkx) (by simpa using this x h)
    · exact List.mem_singleton.mp h

lemma any_upsertBy_self (tbl : List α) (r : α) :
    (upsertBy key tbl r).any (fun x => decide (key x = key r)) = true := by
  unfold upsertBy
  by_cases hany : tbl.any (fun y => decide (key y = key r)) = true
  · rw [if_pos hany]
    obtain ⟨y, hy, hky⟩ := List.any_eq_true.mp hany
    simp only [decide_eq_true_eq] at hky
    refine List.any_eq_true.mpr ⟨r, List.mem_map.mpr ⟨y, hy, by simp [hky]⟩, by simp⟩
  · rw [if_neg hany]
    exact List.any_eq_true.mpr ⟨r, List.mem_append_right _ (List.mem_singleton_self r), by simp⟩

lemma any_upsertBy_of {k : κ} (tbl : List α) (r : α) (hne : key r ≠ k)
    (h : tbl.any (fun x => decide (key x = k)) = true) :
    (upsertBy key tbl r).any (fun x => decide (key x = k)) = true := by
  obtain ⟨y, hy, hky⟩ := List.any_eq_true.mp h
  simp only [decide_eq_true_eq] at hky
  have hyr : key y ≠ key r := fun hc => hne (hc ▸ hky)
  unfold upsertBy
  by_cases hany : tbl.any (fun x => decide (key x = key r)) = true
  · rw [if_pos hany]
    exact List.any_eq_true.mpr ⟨y, List.mem_map.mpr ⟨y, hy, by simp [hyr]⟩, by simp [hky]⟩
  · rw [if_neg hany]
    exact List.any_eq_true.mpr ⟨y, List.mem_append_left _ hy, by simp [hky]⟩

lemma upsertBy_id (tbl : List α) (r : α)
    (hany : tbl.any (fun x => decide (key x = key r)) = true)
    (hall : ∀ x ∈ tbl, key x = key r → x = r) :
    upsertBy key tbl r = tbl := by
  unfold upsertBy
  rw [if_pos hany]
  have h : ∀ x ∈ tbl, (if key x = key r then r else x) = x := by
    intro x hx
    by_cases hk : key x = key r
    · simp [hk, (hall x hx hk).symm]
    · simp [hk]
  rw [List.map_congr_left h, List.map_id']

lemma foldl_upsertBy_preserve {k : κ} {r₀ : α} (rs : List α)
    (hks : ∀ r' ∈ rs, key r' ≠ k) :
    ∀ tbl : List α,
      tbl.any (fun x => decide (key x = k)) = true →
      (∀ x ∈ tbl, key x = k → x = r₀) →
      ((rs.foldl (upsertBy key) tbl).any (fun x => decide (key x = k)) = true) ∧
      (∀ x ∈ rs.foldl (upsertBy key) tbl, key x = k → x = r₀) := by
  induction rs with
  | nil => exact fun tbl h1 h2 => ⟨h1, h2⟩
  | cons a rs ih =>
    intro tbl h1 h2
    simp only [List.foldl_cons]
    refine ih (fun r' hr' => hks r' (List.mem_cons_of_mem a hr')) _ ?_ ?_
    · exact any_upsertBy_of tbl a (hks a (List.mem_cons_self a rs)) h1
    · intro x hx hkx
      rcases mem_upsertBy hx with h | h
      · exact h2 x h hkx
      · exact absurd (h ▸ hkx) (hks a (List.mem_cons_self a rs))

lemma foldl_upsertBy_stable (rs : List α) (hnd : (rs.map key).Nodup) :
    ∀ tbl : List α, ∀ r ∈ rs,
      ((rs.foldl (upsertBy key) tbl).any (fun x => decide (key x = key r)) = true) ∧
      (∀ x ∈ rs.foldl (upsertBy key) tbl, key x = key r → x = r) := by
  induction rs with
  | nil => intro tbl r hr; simp at hr
  | cons a rs ih =>
    intro tbl r hr
    simp only [List.map_cons, List.nodup_cons] at hnd
    simp only [List.foldl_cons]
    rcases List.mem_cons.mp hr with rfl | hr
    · refine foldl_upsertBy_preserve rs ?_ _ (any_upsertBy_self tbl r)
        (upsertBy_key_rows tbl r)
      intro r' hr' hc
      exact hnd.1 (hc ▸ List.mem_map_of_mem key hr')
    · exact ih hnd.2 (upsertBy key tbl a) r hr

lemma foldl_upsertBy_id (rs : List α) :
    ∀ T : List α,
      (∀ r ∈ rs, (T.any (fun x => decide (key x = key r)) = true) ∧
        (∀ x ∈ T, key x = key r → x = r)) →
      rs.foldl (upsertBy key) T = T := by
  induction rs with
  | nil => intro T _; rfl
  | cons a rs ih =>
    intro T h
    simp only [List.foldl_cons]
    rw [upsertBy_id T a (h a (List.mem_cons_self a rs)).1 (h a (List.mem_cons_self a rs)).2]
    exact ih T (fun r hr => h r (List.mem_cons_of_mem a hr))

/-- Replaying the same key-distinct row list into a keyed table is a no-op. -/
lemma foldl_upsertBy_idem (rs : List α) (hnd : (rs.map key).Nodup) (d : List α) :
    rs.foldl (upsertBy key) (rs.foldl (upsertBy key) d) = rs.foldl (upsertBy key) d :=
  foldl_upsertBy_id rs _ (fun r hr => foldl_upsertBy_stable rs hnd d r hr)

lemma countP_upsertBy (tbl : List α) (r : α) (k : κ)
    (hany : tbl.any (fun x => decide (key x = key r)) = true) :
    (upsertBy key tbl r).countP (fun x => decide (key x = k)) =
      tbl.countP (fun x => decide (key x = k)) := by
  unfold upsertBy
  rw [if_pos hany, List.countP_map]
  apply List.countP_congr
  intro x _
  simp only [Function.comp_apply]
  by_cases h : key x = key r
  · simp [h]
  · simp [h]

lemma keyUnique_upsertBy (tbl : List α) (r : α) (h : keyUnique key tbl) :
    keyUnique key (upsertBy key tbl r) := by
  unfold upsertBy keyUnique
  by_cases hany : tbl.any (fun x => decide (key x = key r)) = true
  · rw [if_pos hany]
    refine List.Pairwise.map _ ?_ h
    intro a b hab
    by_cases ha : key a = key r <;> by_cases hb : key b = key r
    · exact absurd (ha.trans hb.symm) hab
    · rw [if_pos ha, if_neg hb, ← ha]; exact hab
    · rw [if_neg ha, if_pos hb, ← hb]; exact hab
    · rw [if_neg ha, if_neg hb]; exact hab
  · rw [if_neg hany]
    rw [List.pairwise_append]
    refine ⟨h, List.pairwise_singleton _ _, ?_⟩
    intro a ha b hb
    rw [List.mem_singleton.mp hb]
    have := List.any_eq_false.mp (Bool.not_eq_true _ ▸ hany)
    simpa using this a ha

lemma keyUnique_countP_le {tbl : List α} (h : keyUnique key tbl) (k : κ) :
    tbl.countP (fun x => decide (key x = k)) ≤ 1 := by
  induction tbl with
  | nil => simp
  | cons a l ih =>
    rw [keyUnique, List.pairwise_cons] at h
    rw [List.countP_cons]
    by_cases hk : key a = k
    · have h0 : l.countP (fun x => decide (key x = k)) = 0 := by
        rw [List.countP_eq_zero]
        intro x hx
        simp only [decide_eq_true_eq]
        intro hxk
        exact (h.1 x hx) (by rw [hk, hxk])
      simp [h0, hk]
    · simp only [hk, decide_False, if_false, Nat.add_zero]
      exact ih h.2

lemma countP_upsertBy_self (tbl : List α) (r : α) (h : keyUnique key tbl) :
    (upsertBy key tbl r).countP (fun x => decide (key x = key r)) = 1 := by
  by_cases hany : tbl.any (fun x => decide (key x = key r)) = true
  · rw [countP_upsertBy tbl r (key r) hany]
    have hle := keyUnique_countP_le h (key r)
    have hpos : 0 < tbl.countP (fun x => decide (key x = key r)) := by
      rw [List.countP_pos_iff]
      obtain ⟨y, hy, hky⟩ := List.any_eq_true.mp hany
      exact ⟨y, hy, hky⟩
    omega
  · unfold upsertBy
    rw [if_neg hany, List.countP_append]
    have h0 : tbl.countP (fun x => decide (key x = key r)) = 0 := by
      rw [List.countP_eq_zero]
      intro x hx
      have := List.any_eq_false.mp (Bool.not_eq_true _ ▸ hany)
      simpa using this x hx
    simp [h0]

lemma filter_eq_single {β : Type} (l : List β) (p : β → Bool) (r : β)
    (hc : l.countP p = 1) (hall : ∀ x ∈ l, p x = true → x = r) :
    l.filter p = [r] := by
  induction l with
  | nil => simp at hc
  | cons a l ih =>
    rw [List.countP_cons] at hc
    by_cases hp : p a = true
    · rw [hp, if_pos rfl] at hc
      have h0 : l.countP p = 0 := by omega
      rw [List.filter_cons_of_pos hp]
      have hnil : l.filter p = [] := by
        rw [List.filter_eq_nil_iff]
        intro x hx
        have := List.countP_eq_zero.mp h0 x hx
        simpa using this
      rw [hnil, hall a (List.mem_cons_self a l) hp]
    · rw [List.filter_cons_of_neg (by simpa using hp)]
      refine ih ?_ (fun x hx hpx => hall x (List.mem_cons_of_mem a hx) hpx)
      rw [if_neg hp] at hc
      omega

/-- Upserting into a key-unique table leaves exactly one row for the new
record's key, and that row is the new record. -/
lemma upsertBy_filter (tbl : List α) (r : α) (h : keyUnique key tbl) :
    (upsertBy key tbl r).filter (fun x => decide (key x = key r)) = [r] :=
  filter_eq_single _ _ r (countP_upsertBy_self tbl r h)
    (fun x hx hpx => upsertBy_key_rows tbl r x hx (by simpa using hpx))

end UpsertLemmas

/-! ## Store invariants -/

lemma storeLoop_keyUnique (data : List Entry) : ∀ (tbl : List RawRow) (n : Nat),
    keyUnique rawKey tbl → keyUnique rawKey (storeLoop tbl n data).1 := by
  induction data with
  | nil => exact fun tbl n h => h
  | cons e es ih =>
    intro tbl n h
    cases hpe : processEntry e with
    | stored r => simpa [storeLoop, hpe] using ih _ (n + 1) (keyUnique_upsertBy tbl r h)
    | skipped => simpa [storeLoop, hpe] using ih tbl n h
    | fatal => simpa [storeLoop, hpe] using h

lemma calcStats_raw (st : DBState) (region : String) :
    (calcStats st region).raw = st.raw := rfl

/-- Branch-free description of `store_data`. -/
lemma store_data_eq (c : Conn) (data : List Entry) (region : String) (fault : Option Nat) :
    store_data c data region fault =
      if (storeLoop c.pending.raw 0 data).2.2 then
        (⟨c.committed, { c.pending with raw := (storeLoop c.pending.raw 0 data).1 }⟩, false)
      else if 0 < (storeLoop c.pending.raw 0 data).2.1 then
        (calcStatsTx ⟨{ c.pending with raw := (storeLoop c.pending.raw 0 data).1 },
                      { c.pending with raw := (storeLoop c.pending.raw 0 data).1 }⟩
          region fault, true)
      else
        (⟨{ c.pending with raw := (storeLoop c.pending.raw 0 data).1 },
          { c.pending with raw := (storeLoop c.pending.raw 0 data).1 }⟩, true) := rfl

lemma calcStatsTx_committed_some (c : Conn) (region : String) (k : Nat) :
    (calcStatsTx c region (some k)).committed = c.committed := rfl

lemma calcStatsTx_pending (c : Conn) (region : String) (fault : Option Nat) :
    (calcStatsTx c region fault).pending = (calcStatsTx c region fault).committed := by
  cases fault with
  | some k => rfl
  | none =>
    unfold calcStatsTx
    by_cases h : aggFaults c.pending.raw region = true <;>
      simp [h, Conn.commit, Conn.rollback]

/-- Whatever the aggregation transaction does — commit, data-driven
`IntegrityError` rollback, or injected-failure rollback — it never touches
the raw table committed by the preceding store. -/
lemma calcStatsTx_diag_raw (st : DBState) (region : String) (fault : Option Nat) :
    (calcStatsTx ⟨st, st⟩ region fault).committed.raw = st.raw := by
  cases fault with
  | some k => rfl
  | none =>
    unfold calcStatsTx
    by_cases h : aggFaults st.raw region = true <;>
      simp [h, Conn.commit, Conn.rollback, calcStats]

/-- On a freshly committed connection the aggregation transaction realises
exactly `calculate_statistics` on the committed state. -/
lemma calcStatsTx_diag_committed (st : DBState) (region : String) :
    (calcStatsTx ⟨st, st⟩ region none).committed = calculate_statistics st region := by
  unfold calcStatsTx calculate_statistics
  by_cases h : aggFaults st.raw region = true <;>
    simp [h, Conn.commit, Conn.rollback]

lemma store_data_keyUnique (c : Conn) (data : List Entry) (region : String)
    (fault : Option Nat)
    (hc : keyUnique rawKey c.committed.raw) (hp : keyUnique rawKey c.pending.raw) :
    keyUnique rawKey (store_data c data region fault).1.committed.raw ∧
    keyUnique rawKey (store_data c data region fault).1.pending.raw := by
  have hloop := storeLoop_keyUnique data c.pending.raw 0 hp
  rw [store_data_eq]
  by_cases hf : (storeLoop c.pending.raw 0 data).2.2 = true
  · simp only [hf, if_true]
    exact ⟨hc, hloop⟩
  · simp only [Bool.not_eq_true] at hf
    simp only [hf, Bool.false_eq_true, if_false]
    by_cases hn : 0 < (storeLoop c.pending.raw 0 data).2.1
    · simp only [hn, if_true]
      refine ⟨?_, ?_⟩
      · rw [calcStatsTx_diag_raw]
        exact hloop
      · rw [calcStatsTx_pending, calcStatsTx_diag_raw]
        exact hloop
    · simp only [hn, if_false]
      exact ⟨hloop, hloop⟩

lemma foldl_store_keyUnique (bs : List (List Entry × String)) :
    ∀ c : Conn, keyUnique rawKey c.committed.raw → keyUnique rawKey c.pending.raw →
      keyUnique rawKey
        ((bs.foldl (fun c b => (store_data c b.1 b.2 none).1) c).committed.raw) ∧
      keyUnique rawKey
        ((bs.foldl (fun c b => (store_data c b.1 b.2 none).1) c).pending.raw) := by
  induction bs with
  | nil => exact fun c hc hp => ⟨hc, hp⟩
  | cons b bs ih =>
    intro c hc hp
    simp only [List.foldl_cons]
    obtain ⟨h1, h2⟩ := store_data_keyUnique c b.1 b.2 none hc hp
    exact ih _ h1 h2

/-- C2: after any sequence of store batches against a fresh database, the
`EnergyProduction` table holds at most one row per natural key
`(period, respondent, fuel_type)`; and upserting a record into any key-unique
table leaves exactly one row for that record's key — the new record itself,
with the latest value and units — and preserves key-uniqueness. -/
theorem store_C2 (batches : List (List Entry × String)) (tbl : List RawRow) (r : RawRow)
    (h : keyUnique rawKey tbl) :
    (∀ k, (runBatches batches).committed.raw.countP
        (fun x => decide (rawKey x = k)) ≤ 1) ∧
    (upsertBy rawKey tbl r).filter (fun x => decide (rawKey x = rawKey r)) = [r] ∧
    (∀ k, (upsertBy rawKey tbl r).countP (fun x => decide (rawKey x = k)) ≤ 1) := by
  have hinit : keyUnique rawKey (initConn.committed.raw) := List.Pairwise.nil
  have hinitp : keyUnique rawKey (initConn.pending.raw) := List.Pairwise.nil
  have hrb := foldl_store_keyUnique batches initConn hinit hinitp
  exact ⟨fun k => keyUnique_countP_le hrb.1 k,
    upsertBy_filter tbl r h,
    fun k => keyUnique_countP_le (keyUnique_upsertBy tbl r h) k⟩

/-- Witness for C2: re-ingesting the key of `rowA` with the different
value/units of `rowA2` leaves exactly the single row `rowA2` for that key. -/
theorem store_C2_witness :
    (upsertBy rawKey [rowA] rowA2).filter
        (fun x => decide (rawKey x = rawKey rowA2)) = [rowA2] ∧
    (upsertBy rawKey [rowA] rowA2).countP
        (fun x => decide (rawKey x = rawKey rowA2)) ≤ 1 := by
  have h := store_C2 [] [rowA] rowA2 (List.pairwise_singleton _ _)
  exact ⟨h.2.1, h.2.2 (rawKey rowA2)⟩

/-! ## Aggregator determinism (C3) -/

lemma dailyRowsFor_keys_nodup (raw : List RawRow) (region : String) :
    ((dailyRowsFor raw region).map dailyKey).Nodup := by
  unfold dailyRowsFor
  rw [List.map_map]
  have hinj : Function.Injective (fun k : String × String => (k.1, region, k.2)) := by
    intro k1 k2 hk
    cases k1; cases k2; simp_all
  exact (List.nodup_dedup _).map hinj

lemma regionalRowsFor_keys_nodup (raw : List RawRow) (region : String) :
    ((regionalRowsFor raw region).map regKey).Nodup := by
  unfold regionalRowsFor
  rw [List.map_map]
  have hinj : Function.Injective (fun d : String => (region, d)) := by
    intro d1 d2 hd
    simpa using hd
  exact (List.nodup_dedup _).map hinj

/-- The success path of the aggregation is idempotent: re-upserting the same
key-distinct recomputed rows changes nothing. -/
lemma calcStats_idem (st : DBState) (region : String) :
    calcStats (calcStats st region) region = calcStats st region := by
  unfold calcStats
  rw [DBState.mk.injEq]
  exact ⟨rfl,
    foldl_upsertBy_idem _ (dailyRowsFor_keys_nodup st.raw region) st.daily,
    foldl_upsertBy_idem _ (regionalRowsFor_keys_nodup st.raw region) st.regional⟩

/-- C3: `calculate_statistics` only reads the raw table, and running it twice
for the same entity with no intervening raw-table change produces identical
`DailyGeneration` and `RegionalStats` content rows — the second run changes
nothing.  This covers both of the program's behaviours: when every period
date parses, the second run re-upserts the identical recomputed rows; when
some does not (as with the hour-only periods the hourly API delivers), both
runs raise `IntegrityError` on the `NOT NULL date` column, roll back, and
leave the derived tables untouched. -/
theorem aggregator_C3 (st : DBState) (region : String) :
    calculate_statistics (calculate_statistics st region) region =
      calculate_statistics st region ∧
    (calculate_statistics st region).raw = st.raw := by
  by_cases h : aggFaults st.raw region = true
  · simp [calculate_statistics, h]
  · simp only [Bool.not_eq_true] at h
    constructor
    · simp only [calculate_statistics, h, Bool.false_eq_true, if_false, calcStats_raw]
      exact calcStats_idem st region
    · simp [calculate_statistics, h, calcStats_raw]

/-! ## Regional percentages (C4, C5) -/

/-- C4: when the aggregation commits (every period date parses, so the
`RegionalStats` rows are actually written — `aggFaults` false), the written
regional table is exactly the upserts of the recomputed rows, and every such
row with `total_generation_mwh = 0` has `NULL` in all seven percentage fields
— SQLite evaluates `x / 0` to `NULL` (`sqlDiv`) instead of faulting, and
`sqlDiv` is total, so a division-by-zero fault is impossible (the only
data-driven fault, an unparseable date, is excluded by the hypothesis and is
not a division fault either). -/
theorem regional_C4 (st : DBState) (region : String)
    (hok : aggFaults st.raw region = false) :
    (calculate_statistics st region).regional =
      (regionalRowsFor st.raw region).foldl (upsertBy regKey) st.regional ∧
    ∀ row ∈ regionalRowsFor st.raw region, row.totalGenerationMwh = 0 →
      row.renewablePercentage = none ∧ row.coalPercentage = none ∧
      row.gasPercentage = none ∧ row.nuclearPercentage = none ∧
      row.solarPercentage = none ∧ row.windPercentage = none ∧
      row.hydroPercentage = none := by
  constructor
  · simp [calculate_statistics, hok, calcStats]
  · intro row hrow h0
    obtain ⟨d, _, rfl⟩ := List.mem_map.mp hrow
    simp only [regionalRowFor] at h0 ⊢
    simp [pct, sqlDiv, h0]

/-- Witness for C4: a raw table whose single reading is `0` (period a plain
date, so the aggregation commits) writes a regional row with zero total and
`NULL` in every percentage field. -/
theorem regional_C4_witness :
    (calculate_statistics ⟨zeroRaw, [], []⟩ "NE").regional =
      (regionalRowsFor zeroRaw "NE").foldl (upsertBy regKey) [] ∧
    (regionalRowFor zeroRaw "NE" "2024-01-01").renewablePercentage = none ∧
    (regionalRowFor zeroRaw "NE" "2024-01-01").coalPercentage = none ∧
    (regionalRowFor zeroRaw "NE" "2024-01-01").gasPercentage = none ∧
    (regionalRowFor zeroRaw "NE" "2024-01-01").nuclearPercentage = none ∧
    (regionalRowFor zeroRaw "NE" "2024-01-01").solarPercentage = none ∧
    (regionalRowFor zeroRaw "NE" "2024-01-01").windPercentage = none ∧
    (regionalRowFor zeroRaw "NE" "2024-01-01").hydroPercentage = none := by
  have hok : aggFaults zeroRaw "NE" = false := by decide
  have h := regional_C4 ⟨zeroRaw, [], []⟩ "NE" hok
  have hsd : sqlDate "2024-01-01" = some "2024-01-01" := rfl
  have hdates : regDates zeroRaw "NE" = ["2024-01-01"] := by
    simp [regDates, rowsFor, zeroRaw, hsd]
  have hmem : regionalRowFor zeroRaw "NE" "2024-01-01" ∈ regionalRowsFor zeroRaw "NE" := by
    simp [regionalRowsFor, hdates]
  have htot : (regionalRowFor zeroRaw "NE" "2024-01-01").totalGenerationMwh = 0 := by
    simp [regionalRowFor, rowsFor, zeroRaw, hsd, sumVal]
  exact ⟨h.1, h.2 (regionalRowFor zeroRaw "NE" "2024-01-01") hmem htot⟩

lemma catSum_cons (r : RawRow) (g : List RawRow) (ft : String) :
    catSum (r :: g) ft = (if r.fuelType = ft then r.value else 0) + catSum g ft := by
  simp [catSum]

lemma sumVal_cons (r : RawRow) (g : List RawRow) :
    sumVal (r :: g) = r.value + sumVal g := by
  simp [sumVal]

/-- Over rows whose fuel type is one of the six requested facets, the six
per-category subtotals partition the total. -/
lemma sum_split (g : List RawRow)
    (h : ∀ r ∈ g, r.fuelType = "COL" ∨ r.fuelType = "NG" ∨ r.fuelType = "NUC" ∨
      r.fuelType = "SUN" ∨ r.fuelType = "WND" ∨ r.fuelType = "WAT") :
    catSum g "COL" + catSum g "NG" + catSum g "NUC" + catSum g "SUN" +
      catSum g "WND" + catSum g "WAT" = sumVal g := by
  induction g with
  | nil => simp [catSum, sumVal]
  | cons r g ih =>
    have hr := h r (List.mem_cons_self r g)
    have hg : ∀ x ∈ g, x.fuelType = "COL" ∨ x.fuelType = "NG" ∨ x.fuelType = "NUC" ∨
        x.fuelType = "SUN" ∨ x.fuelType = "WND" ∨ x.fuelType = "WAT" :=
      fun x hx => h x (List.mem_cons_of_mem r hx)
    rw [catSum_cons, catSum_cons, catSum_cons, catSum_cons, catSum_cons, catSum_cons,
      sumVal_cons, ← ih hg]
    rcases hr with h1 | h1 | h1 | h1 | h1 | h1 <;> rw [h1] <;> simp <;> ring

/-- C5: whenever a written `RegionalStats` row has `total_generation_mwh > 0`
(over raw rows whose fuel types are among the six facets the fetcher
requests, and whose period dates parse so that the aggregation commits these
very rows — see `regional_C4`'s first conjunct), the six tracked category
percentages are non-`NULL` and sum to exactly `100`; and the §8 scenario
(`NE`, date `2024-01-01`, `SUN=10, WND=20, COL=70`) makes the aggregation
commit exactly the row `solar=10%, wind=20%, coal=70%, renewable=30%`. -/
theorem regional_C5 (raw : List RawRow) (region : String)
    (htr : ∀ r ∈ raw, r.fuelType = "COL" ∨ r.fuelType = "NG" ∨ r.fuelType = "NUC" ∨
      r.fuelType = "SUN" ∨ r.fuelType = "WND" ∨ r.fuelType = "WAT")
    (_hok : aggFaults raw region = false) :
    (∀ row ∈ regionalRowsFor raw region, 0 < row.totalGenerationMwh →
      ∃ pc pg pn ps pw ph : ℚ,
        row.coalPercentage = some pc ∧ row.gasPercentage = some pg ∧
        row.nuclearPercentage = some pn ∧ row.solarPercentage = some ps ∧
        row.windPercentage = some pw ∧ row.hydroPercentage = some ph ∧
        pc + pg + pn + ps + pw + ph = 100) ∧
    (calculate_statistics ⟨neScenario, [], []⟩ "NE").regional =
      [{ respondent := "NE", date := "2024-01-01", totalGenerationMwh := 100
         renewablePercentage := some 30, peakHourMwh := some 70
         averageHourlyMwh := some (100 / 3), coalPercentage := some 70
         gasPercentage := some 0, nuclearPercentage := some 0
         solarPercentage := some 10, windPercentage := some 20
         hydroPercentage := some 0 }] := by
  constructor
  · intro row hrow hpos
    obtain ⟨d, _, rfl⟩ := List.mem_map.mp hrow
    simp only [regionalRowFor] at hpos ⊢
    set g := (rowsFor raw region).filter
      (fun r => decide (sqlDate r.period = some d)) with hgdef
    have hT0 : sumVal g ≠ 0 := ne_of_gt hpos
    have hsub : ∀ r ∈ g, r.fuelType = "COL" ∨ r.fuelType = "NG" ∨ r.fuelType = "NUC" ∨
        r.fuelType = "SUN" ∨ r.fuelType = "WND" ∨ r.fuelType = "WAT" := by
      intro r hrg
      have h1 := List.mem_filter.mp hrg
      have h2 := List.mem_filter.mp (show r ∈ raw.filter
        (fun x => decide (x.respondent = region)) from h1.1)
      exact htr r h2.1
    have hsum := sum_split g hsub
    refine ⟨catSum g "COL" / sumVal g * 100, catSum g "NG" / sumVal g * 100,
      catSum g "NUC" / sumVal g * 100, catSum g "SUN" / sumVal g * 100,
      catSum g "WND" / sumVal g * 100, catSum g "WAT" / sumVal g * 100,
      by simp [pct, sqlDiv, hT0], by simp [pct, sqlDiv, hT0],
      by simp [pct, sqlDiv, hT0], by simp [pct, sqlDiv, hT0],
      by simp [pct, sqlDiv, hT0], by simp [pct, sqlDiv, hT0], ?_⟩
    have hcombine : catSum g "COL" / sumVal g * 100 + catSum g "NG" / sumVal g * 100 +
        catSum g "NUC" / sumVal g * 100 + catSum g "SUN" / sumVal g * 100 +
        catSum g "WND" / sumVal g * 100 + catSum g "WAT" / sumVal g * 100 =
        (catSum g "COL" + catSum g "NG" + catSum g "NUC" + catSum g "SUN" +
          catSum g "WND" + catSum g "WAT") / sumVal g * 100 := by
      ring
    rw [hcombine, hsum, div_self hT0, one_mul]
  · have hok : aggFaults neScenario "NE" = false := by decide
    have hsd : sqlDate "2024-01-01" = some "2024-01-01" := rfl
    have hdates : regDates neScenario "NE" = ["2024-01-01"] := by
      simp [regDates, rowsFor, neScenario, hsd]
    have hrow : regionalRowFor neScenario "NE" "2024-01-01" =
        { respondent := "NE", date := "2024-01-01", totalGenerationMwh := 100
          renewablePercentage := some 30, peakHourMwh := some 70
          averageHourlyMwh := some (100 / 3), coalPercentage := some 70
          gasPercentage := some 0, nuclearPercentage := some 0
          solarPercentage := some 10, windPercentage := some 20
          hydroPercentage := some 0 } := by
      simp only [regionalRowFor]
      rw [RegionalRow.mk.injEq]
      norm_num +decide [rowsFor, neScenario, hsd, sumVal, catSum, renewSum,
        pct, sqlDiv, qMax, qAvg, max_def]
    simp only [calculate_statistics, hok, Bool.false_eq_true, if_false, calcStats]
    simp [regionalRowsFor, hdates, hrow, upsertBy]

/-- Witness for C5: the scenario table satisfies the fuel-type facet
hypothesis, and the theorem yields the expected committed `RegionalStats`
row. -/
theorem regional_C5_witness :
    (calculate_statistics ⟨neScenario, [], []⟩ "NE").regional =
      [{ respondent := "NE", date := "2024-01-01", totalGenerationMwh := 100
         renewablePercentage := some 30, peakHourMwh := some 70
         averageHourlyMwh := some (100 / 3), coalPercentage := some 70
         gasPercentage := some 0, nuclearPercentage := some 0
         solarPercentage := some 10, windPercentage := some 20
         hydroPercentage := some 0 }] :=
  (regional_C5 neScenario "NE" (by decide) (by decide)).2

/-! ## Store error handling (C6, C8, C9, C10) -/

/-- When no entry of the batch raises a batch-aborting (non-sqlite) exception,
the entry loop examines every entry, upserts the stored ones in order, skips
the rest, and reports no fatal failure. -/
lemma storeLoop_no_fatal (data : List Entry) : ∀ (tbl : List RawRow) (n : Nat),
    (∀ e ∈ data, processEntry e ≠ EntryResult.fatal) →
    storeLoop tbl n data =
      ((data.filterMap entryRow).foldl (upsertBy rawKey) tbl,
        n + (data.filterMap entryRow).length, false) := by
  induction data with
  | nil => intro tbl n _; simp [storeLoop]
  | cons e es ih =>
    intro tbl n h
    have hrest : ∀ x ∈ es, processEntry x ≠ EntryResult.fatal :=
      fun x hx => h x (List.mem_cons_of_mem e hx)
    cases hpe : processEntry e with
    | stored r =>
      rw [List.filterMap_cons]
      simp only [storeLoop, hpe, entryRow]
      rw [ih _ (n + 1) hrest]
      simp only [List.length_cons, List.foldl_cons]
      refine congrArg _ (congrArg (fun m => (m, false)) ?_)
      omega
    | skipped =>
      rw [List.filterMap_cons]
      simp only [storeLoop, hpe, entryRow]
      exact ih tbl n hrest
    | fatal => exact absurd hpe (h e (List.mem_cons_self e es))

/-- C6 counterexample: in the batch `[good, malformed-value, good]` the
malformed `value` raises `ValueError` from `float(...)`, which the inner
`except sqlite3.Error` does not catch; the outer handler returns `False`
without committing, so the remaining good entry is neither processed nor
committed — contradicting the claim that such an entry is merely skipped. -/
theorem store_C6_counterexample :
    (store_data initConn
      [entOk "2024-01-01T00" "SUN" "Solar" 10, entMalformed,
        entOk "2024-01-01T02" "WND" "Wind" 7] "NE" none).2 = false ∧
    (store_data initConn
      [entOk "2024-01-01T00" "SUN" "Solar" 10, entMalformed,
        entOk "2024-01-01T02" "WND" "Wind" 7] "NE" none).1.committed.raw = [] := by
  decide

/-- C6 amended: a per-entry `sqlite3.Error` (e.g. a missing `NOT NULL` field)
is caught, the entry skipped, and every remaining entry still processed and
committed; but a malformed numeric value raises outside the inner handler and
aborts the whole batch uncommitted.  This theorem is the amended positive
half: with no batch-aborting entry, `store_data` returns `True` and commits
exactly the upserts of the storable entries — skipped entries do not abort
the rest. -/
theorem store_C6_amended (c : Conn) (data : List Entry) (region : String)
    (h : ∀ e ∈ data, processEntry e ≠ EntryResult.fatal) :
    (store_data c data region none).2 = true ∧
    (store_data c data region none).1.committed.raw =
      (data.filterMap entryRow).foldl (upsertBy rawKey) c.pending.raw := by
  rw [store_data_eq]
  rw [storeLoop_no_fatal data c.pending.raw 0 h]
  by_cases hn : 0 < 0 + (data.filterMap entryRow).length
  · simp only [Bool.false_eq_true, if_false, hn, if_true]
    exact ⟨trivial, calcStatsTx_diag_raw _ region none⟩
  · simp only [Bool.false_eq_true, if_false, hn]
    constructor <;> trivial

/-- Witness for C6's amended theorem: a batch `[good, missing-period, good]`
(the middle entry violates the `NOT NULL` constraint and is skipped) returns
`True` and commits the upserts of the two good entries. -/
theorem store_C6_amended_witness :
    (store_data initConn
      [entOk "2024-01-01T00" "SUN" "Solar" 10, entNoPeriod,
        entOk "2024-01-01T02" "WND" "Wind" 7] "NE" none).2 = true ∧
    (store_data initConn
      [entOk "2024-01-01T00" "SUN" "Solar" 10, entNoPeriod,
        entOk "2024-01-01T02" "WND" "Wind" 7] "NE" none).1.committed.raw =
      (([entOk "2024-01-01T00" "SUN" "Solar" 10, entNoPeriod,
        entOk "2024-01-01T02" "WND" "Wind" 7].filterMap entryRow).foldl
          (upsertBy rawKey) initConn.pending.raw) :=
  store_C6_amended initConn
    [entOk "2024-01-01T00" "SUN" "Solar" 10, entNoPeriod,
      entOk "2024-01-01T02" "WND" "Wind" 7] "NE" (by decide)

/-- C8: when the batch stores entries and the subsequent aggregation raises
(`fault = some k`), only the aggregation transaction is rolled back: the raw
records committed by `store_data`'s preceding `conn.commit()` survive, the
derived tables keep their pre-aggregation contents, and no exception
propagates (`store_data` still returns `True`, so the pipeline proceeds). -/
theorem agg_C8 (c : Conn) (data : List Entry) (region : String) (k : Nat)
    (hnf : (storeLoop c.pending.raw 0 data).2.2 = false)
    (hpos : 0 < (storeLoop c.pending.raw 0 data).2.1) :
    (store_data c data region (some k)).2 = true ∧
    (store_data c data region (some k)).1.committed.raw =
      (storeLoop c.pending.raw 0 data).1 ∧
    (store_data c data region (some k)).1.committed.daily = c.pending.daily ∧
    (store_data c data region (some k)).1.committed.regional = c.pending.regional := by
  rw [store_data_eq]
  simp only [hnf, Bool.false_eq_true, if_false, hpos, if_true]
  rw [calcStatsTx_committed_some]
  exact ⟨trivial, rfl, rfl, rfl⟩

/-- Witness for C8: one stored entry, aggregation faulting immediately — the
stored raw row is committed, derived tables untouched, return value `True`. -/
theorem agg_C8_witness :
    (store_data initConn [entOk "2024-01-01T00" "SUN" "Solar" 10] "NE" (some 0)).2 = true ∧
    (store_data initConn [entOk "2024-01-01T00" "SUN" "Solar" 10] "NE"
        (some 0)).1.committed.raw =
      (storeLoop initConn.pending.raw 0 [entOk "2024-01-01T00" "SUN" "Solar" 10]).1 ∧
    (store_data initConn [entOk "2024-01-01T00" "SUN" "Solar" 10] "NE"
        (some 0)).1.committed.daily = initConn.pending.daily ∧
    (store_data initConn [entOk "2024-01-01T00" "SUN" "Solar" 10] "NE"
        (some 0)).1.committed.regional = initConn.pending.regional :=
  agg_C8 initConn [entOk "2024-01-01T00" "SUN" "Solar" 10] "NE" 0 (by decide) (by decide)

/-- C9 counterexample: `store_data` returns only a boolean — two batches with
different internal stored counts (1 vs 2) have identical return values, so the
return value does not carry the count of successfully stored entries. -/
theorem store_C9_counterexample :
    storedCount initConn [entOk "2024-01-01T00" "SUN" "Solar" 10] ≠
      storedCount initConn
        [entOk "2024-01-01T00" "SUN" "Solar" 10, entOk "2024-01-01T02" "WND" "Wind" 7] ∧
    (store_data initConn [entOk "2024-01-01T00" "SUN" "Solar" 10] "NE" none).2 =
      (store_data initConn
        [entOk "2024-01-01T00" "SUN" "Solar" 10, entOk "2024-01-01T02" "WND" "Wind" 7]
        "NE" none).2 := by
  decide

/-- C9 amended: `store_data` returns only the boolean batch-success flag (the
stored count is internal, logged, and used to trigger aggregation), and that
flag is `True` whenever no batch-aborting failure occurred — even when some
entries were skipped. -/
theorem store_C9_amended (c : Conn) (data : List Entry) (region : String)
    (fault : Option Nat) (h : ∀ e ∈ data, processEntry e ≠ EntryResult.fatal) :
    (store_data c data region fault).2 = true := by
  rw [store_data_eq]
  rw [storeLoop_no_fatal data c.pending.raw 0 h]
  by_cases hn : 0 < 0 + (data.filterMap entryRow).length
  · simp only [Bool.false_eq_true, if_false, hn, if_true]
  · simp only [Bool.false_eq_true, if_false, hn, if_false]

/-- Witness for C9's amended theorem: a batch with one skipped entry (missing
`NOT NULL` field) still returns `True`. -/
theorem store_C9_amended_witness :
    (store_data initConn [entOk "2024-01-01T00" "SUN" "Solar" 10, entNoPeriod]
      "NE" none).2 = true :=
  store_C9_amended initConn [entOk "2024-01-01T00" "SUN" "Solar" 10, entNoPeriod]
    "NE" none (by decide)

/-- C10: an entry lacking the `value` field entirely is not treated as a
failure: `float(entry.get('value', 0))` defaults it to `0.0`, the row is
upserted with value `0`, the entry increments `stored_count`, and — the count
being positive — `calculate_statistics` is triggered on the committed batch
(whose own outcome is data-dependent: it rolls back without writing if the
period's date does not parse, as with the hour-only periods of the hourly
API, and recomputes the derived tables otherwise). -/
theorem store_C10 (c : Conn) (tbl : List RawRow) (n : Nat) (e : Entry)
    (region p rsp ft tn : String)
    (hp : e.period = some p) (hr : e.respondent = some rsp)
    (hf : e.fueltype = some ft) (ht : e.typeName = some tn)
    (hv : e.value = none) :
    processEntry e = EntryResult.stored (zeroValueRow e p rsp ft tn) ∧
    storeLoop tbl n [e] =
      (upsertBy rawKey tbl (zeroValueRow e p rsp ft tn), n + 1, false) ∧
    (store_data c [e] region none).2 = true ∧
    (store_data c [e] region none).1.committed =
      calculate_statistics ⟨upsertBy rawKey c.pending.raw (zeroValueRow e p rsp ft tn),
        c.pending.daily, c.pending.regional⟩ region := by
  have hpe : processEntry e = EntryResult.stored (zeroValueRow e p rsp ft tn) := by
    unfold processEntry
    rw [hv, hp, hr, hf, ht]
    rfl
  have hloop : ∀ (t : List RawRow) (m : Nat), storeLoop t m [e] =
      (upsertBy rawKey t (zeroValueRow e p rsp ft tn), m + 1, false) := by
    intro t m
    simp [storeLoop, hpe]
  refine ⟨hpe, hloop tbl n, ?_, ?_⟩
  · rw [store_data_eq, hloop]
    simp
  · rw [store_data_eq, hloop]
    simp only [Bool.false_eq_true, if_false, Nat.zero_add, Nat.lt_irrefl,
      Nat.zero_lt_one, if_true]
    exact calcStatsTx_diag_committed _ region

/-- Witness for C10: the fixture entry without a `value` field is stored with
value `0`, counted, and triggers aggregation. -/
theorem store_C10_witness :
    processEntry entNoValue =
      EntryResult.stored (zeroValueRow entNoValue "2024-01-01T02" "NE" "SUN" "Solar") ∧
    storeLoop [] 0 [entNoValue] =
      (upsertBy rawKey [] (zeroValueRow entNoValue "2024-01-01T02" "NE" "SUN" "Solar"),
        0 + 1, false) ∧
    (store_data initConn [entNoValue] "NE" none).2 = true ∧
    (store_data initConn [entNoValue] "NE" none).1.committed =
      calculate_statistics ⟨upsertBy rawKey initConn.pending.raw
          (zeroValueRow entNoValue "2024-01-01T02" "NE" "SUN" "Solar"),
        initConn.pending.daily, initConn.pending.regional⟩ "NE" :=
  store_C10 initConn [] 0 entNoValue "NE" "2024-01-01T02" "NE" "SUN" "Solar"
    rfl rfl rfl rfl rfl

/-! ## Fetcher error handling (C7) -/

/-- C7: for any chunk request, `get_energy_production_data` returns `[]`
without raising on a non-success transport status, returns `[]` without
raising when the JSON body lacks the expected `response`/`data` keys (the
`KeyError` is absorbed by the blanket handler), and consumes exactly one
response from the transport — it never retries.  `fetch_energy_data` of the
final deliverable likewise returns early with no records, raising nothing,
when the structural keys are missing. -/
theorem fetcher_C7 (code : Nat) (payload : Option (List Entry)) (r : ApiResponse)
    (rest : List ApiResponse) (op : String) :
    (code ≠ 200 → get_energy_production_data ⟨code, payload⟩ = []) ∧
    get_energy_production_data ⟨code, none⟩ = [] ∧
    (fetchOnce (r :: rest)).2 = rest ∧
    fetch_energy_data none op = Except.ok [] := by
  refine ⟨?_, ?_, rfl, rfl⟩
  · intro h
    simp [get_energy_production_data, h]
  · unfold get_energy_production_data
    by_cases h : code = 200 <;> simp [h]

/-- Witness for C7: an HTTP 500 with a well-formed body yields `[]`, a 200
with a malformed body yields `[]`, the queue shrinks by exactly one response,
and the final-deliverable fetcher yields no records on a malformed body. -/
theorem fetcher_C7_witness :
    get_energy_production_data ⟨500, some [entOk "2024-01-01T00" "SUN" "Solar" 10]⟩ = [] ∧
    get_energy_production_data ⟨200, none⟩ = [] ∧
    (fetchOnce (⟨500, none⟩ :: [⟨200, none⟩])).2 = [⟨200, none⟩] ∧
    fetch_energy_data none "NE" = Except.ok [] := by
  have h1 := fetcher_C7 500 (some [entOk "2024-01-01T00" "SUN" "Solar" 10])
    ⟨500, none⟩ [⟨200, none⟩] "NE"
  have h2 := fetcher_C7 200 none ⟨500, none⟩ [⟨200, none⟩] "NE"
  exact ⟨h1.1 (by decide), h2.2.1, h1.2.2.1, h1.2.2.2⟩

end EIA
